import Mathlib

/-!
Verification development for the NOT7 agent-execution core.

The definitions below are a shallow embedding of the Go sources:
the spec data model (`spec/types.go`), spec validation
(`spec/loader.go`, `ValidateSpec`), the node-graph interpreter
(`executor/executor.go`: `Execute`, `executeNode`, `followRoutes`,
`findNodesFrom`, `executeLLMNode`, `executeToolNode`), the ReAct loop
(`executor/react.go`, `executor/react_with_tools.go` with
`parseToolCall`), the tool registry and manager
(`tools/registry.go`, `tools/manager.go`), and the execution storage
layer (`execution/storage.go`: `buildTraceData`, `parseTraceData`,
`Save`, `SaveOutput`).

Modelling conventions:
- Go `float64` cost values are modelled as exact rationals (`ℚ`).
- Wall-clock fields (durations, elapsed milliseconds) are not modelled;
  they are set to `0` where a structure keeps the field.
- The LLM HTTP client is an external collaborator; it is modelled as an
  oracle indexed by the call number, so it can answer differently on
  each call, like the real backend.
- Tool-provider construction (HTTP catalogs, OAuth) is external; it is
  modelled as an oracle from the provider identifier to a tool-manager
  interface.
- Strings are manipulated through their character lists; Go operates on
  UTF-8 bytes, which agrees with the character view on the ASCII
  markers involved (`FINAL:`, `TOOL_CALL:`, braces, quotes).
-/

deriving instance DecidableEq for Except

namespace Not7

/-- Cost values (`float64` in Go) are modelled as exact rationals. -/
abbrev Cost := ℚ

/-- Model of a Go `interface{}` value that came from JSON. -/
inductive JsonValue where
  | str (s : String)
  | num (q : ℚ)
  | jbool (b : Bool)
  | null
deriving DecidableEq, Repr

/-- Model of `spec.LLMConfig` from `spec/types.go`. -/
structure LLMConfig where
  Provider : String := ""
  Model : String := ""
  Temperature : Cost := 0
  MaxTokens : Int := 0
deriving DecidableEq, Repr

/-- Model of `spec.ToolsConfig` from `spec/types.go`. -/
structure ToolsConfig where
  Provider : String := ""
  Enabled : List String := []
deriving DecidableEq, Repr

/-- Model of `spec.Constraints` from `spec/types.go`. -/
structure Constraints where
  MaxTime : String := ""
  MaxCost : Cost := 0
  MaxRetries : Int := 0
deriving DecidableEq, Repr

/-- Model of `spec.Config` from `spec/types.go` (`nil` pointers become `Option`). -/
structure Config where
  LLM : Option LLMConfig := none
  Constraints : Option Constraints := none
  Tools : Option ToolsConfig := none
deriving DecidableEq, Repr

/-- Model of `spec.Node` from `spec/types.go`. `MaxIterations` is a Go `int`,
hence `Int`. `ToolArguments` is a JSON object, modelled as an association list.
The Go field `Type` is named `NodeType` here because `Type` is a Lean keyword. -/
structure Node where
  ID : String
  Name : String := ""
  NodeType : String
  Prompt : String := ""
  InputFormat : String := ""
  OutputFormat : String := ""
  LLM : Option LLMConfig := none
  Config : Option Config := none
  ReActGoal : String := ""
  MaxIterations : Int := 0
  ThinkingPrompt : String := ""
  ToolsEnabled : Bool := false
  AvailableTools : List String := []
  ToolName : String := ""
  ToolArguments : Option (List (String × JsonValue)) := none
deriving DecidableEq, Repr

/-- Model of `spec.Condition` from `spec/types.go`; the Go field `Type` is
named `CondType` here because `Type` is a Lean keyword. -/
structure Condition where
  CondType : String
  Expression : String := ""
deriving DecidableEq, Repr

/-- Model of `spec.Route` from `spec/types.go`. -/
structure Route where
  From : String
  To : String
  Condition : Option Condition := none
  Parallel : Bool := false
deriving DecidableEq, Repr

/-- Model of `spec.ToolCallTrace`. `Result` is `interface{}` in Go and holds
the tool output; it is modelled by its textual rendering. -/
structure ToolCallTrace where
  ToolName : String
  Arguments : List (String × JsonValue) := []
  Result : Option String := none
  Error : String := ""
deriving DecidableEq, Repr

/-- Model of `spec.ThinkingStep`; the wall-clock `DurationMs` field is dropped. -/
structure ThinkingStep where
  Iteration : Nat
  Thought : String
  Cost : Cost
  ToolCalls : List ToolCallTrace := []
deriving DecidableEq, Repr

/-- Model of `spec.ReActTrace`; the wall-clock `TotalThinkingTimeMs` field is dropped. -/
structure ReActTrace where
  Iterations : Nat
  ThinkingSteps : List ThinkingStep
  IterationsCost : Cost
deriving DecidableEq, Repr

/-- Model of `spec.NodeResult`; the wall-clock `ExecutionTimeMs` field is dropped.
`Input` and `Output` are `interface{}` in Go but only ever hold strings here. -/
structure NodeResult where
  NodeID : String
  Status : String
  Cost : Cost := 0
  Input : String := ""
  Output : String := ""
  Error : String := ""
  ReActTrace : Option ReActTrace := none
deriving DecidableEq, Repr

/-- Model of `spec.Metadata`; the wall-clock `ExecutionTimeMs` field is kept as
data but the executor model writes `0` into it. -/
structure Metadata where
  CreatedAt : String := ""
  ExecutedAt : String := ""
  ExecutionTimeMs : Int := 0
  TotalCost : Cost := 0
  Status : String := ""
  NodeResults : List NodeResult := []
deriving DecidableEq, Repr

/-- Model of `spec.AgentSpec` from `spec/types.go`. -/
structure AgentSpec where
  ID : String := ""
  Version : String
  Goal : String
  Config : Option Config := none
  Nodes : List Node
  Routes : List Route
  Metadata : Option Metadata := none
deriving DecidableEq, Repr

/-- Model of `tools.ToolResult`; the opaque `Output` field is modelled by its
textual (`%v`) rendering, `Metadata` is dropped. -/
structure ToolResult where
  Success : Bool
  Output : String := ""
  Error : String := ""
deriving DecidableEq, Repr

/-- Model of `tools.ToolDefinition`; `InputSchema` is not observed by the
claims and is dropped. -/
structure ToolDefinition where
  Name : String
  Description : String := ""
  Provider : String := ""
deriving DecidableEq, Repr

/-! ## String helpers mirroring the Go `strings` package -/

/-- Model of `strings.HasPrefix`, stated on character lists. -/
def goHasPrefix (s p : String) : Bool :=
  p.data.isPrefixOf s.data

/-- Model of `strings.TrimSpace` (ASCII whitespace view of Unicode trimming). -/
def goTrimSpace (s : String) : String :=
  ⟨(((s.data.dropWhile Char.isWhitespace).reverse.dropWhile Char.isWhitespace).reverse)⟩

/-- Model of `strings.TrimPrefix`: drop `p` from the front of `s` when present. -/
def stripOnce (s p : String) : String :=
  if goHasPrefix s p then ⟨s.data.drop p.data.length⟩ else s

/-- Model of `strings.Trim` with a cutset: remove leading and trailing
characters that belong to `cut`. -/
def trimCutset (s : String) (cut : List Char) : String :=
  ⟨(((s.data.dropWhile (cut.contains ·)).reverse.dropWhile (cut.contains ·)).reverse)⟩

/-- Splitting a character list at a separator character. -/
def splitCharAux (sep : Char) : List Char → List Char → List String
  | [], acc => [⟨acc.reverse⟩]
  | c :: rest, acc =>
    if c = sep then ⟨acc.reverse⟩ :: splitCharAux sep rest []
    else splitCharAux sep rest (c :: acc)

/-- Model of `strings.Split` on a one-character separator. -/
def splitChar (s : String) (sep : Char) : List String :=
  splitCharAux sep s.data []

/-- Model of `strings.Join` with a separator string. -/
def goJoin (parts : List String) (sep : String) : String :=
  String.intercalate sep parts

/-- Model of `strings.Contains` (substring test), via character lists. -/
def goContainsSub (s sub : String) : Bool :=
  decide (sub.data <:+: s.data)

/-! ## Spec validation (`ValidateSpec` from `spec/loader.go`) -/

/-- Node-by-node half of `ValidateSpec`: walks the node list, carrying the set
of node ids seen so far (as a list), and reproduces the Go check order
(empty id, duplicate id, empty type, `llm` node without prompt). -/
def validateNodesGo : List Node → List String → Except String (List String)
  | [], ids => .ok ids
  | n :: rest, ids =>
    if n.ID = "" then .error "node ID is required"
    else if ids.contains n.ID then .error ("duplicate node ID: " ++ n.ID)
    else if n.NodeType = "" then .error ("node type is required for node " ++ n.ID)
    else if n.NodeType = "llm" ∧ n.Prompt = "" then
      .error ("prompt is required for LLM node " ++ n.ID)
    else validateNodesGo rest (n.ID :: ids)

/-- Route-by-route half of `ValidateSpec`: both endpoints must be nonempty and
reference a known node id, except for the sentinels `start` (as `from`) and
`end` (as `to`). -/
def validateRoutesGo (ids : List String) : List Route → Except String Unit
  | [] => .ok ()
  | r :: rest =>
    if r.From = "" ∨ r.To = "" then
      .error "route must have both \x27from\x27 and \x27to\x27"
    else if r.From ≠ "start" ∧ ¬ ids.contains r.From then
      .error ("route references unknown node: " ++ r.From)
    else if r.To ≠ "end" ∧ ¬ ids.contains r.To then
      .error ("route references unknown node: " ++ r.To)
    else validateRoutesGo ids rest

/-- Model of `ValidateSpec` from `spec/loader.go`. -/
def ValidateSpec (s : AgentSpec) : Except String Unit :=
  if s.Version = "" then .error "version is required"
  else if s.Goal = "" then .error "goal is required"
  else if s.Nodes.isEmpty then .error "at least one node is required"
  else if s.Routes.isEmpty then .error "at least one route is required"
  else
    match validateNodesGo s.Nodes [] with
    | .error e => .error e
    | .ok ids => validateRoutesGo ids s.Routes

/-! ## Association-list model of Go maps

A Go `map[string]T` is observed only through lookup and iteration over its
entries; it is modelled as an association list holding exactly one entry per
key, with insertion (`assocSet`) replacing any previous entry for the key. -/

/-- Map insertion with overwrite (`m[k] = v` on a Go map). -/
def assocSet {α : Type} (l : List (String × α)) (k : String) (v : α) :
    List (String × α) :=
  (k, v) :: l.filter (fun p => p.1 != k)

/-- Map lookup (`m[k]` on a Go map, `none` when the key is absent). -/
def lookupAssoc {α : Type} : List (String × α) → String → Option α
  | [], _ => none
  | (k', v) :: rest, k => if k' = k then some v else lookupAssoc rest k

/-! ## Tool-call extraction (`parseToolCall` from `executor/react_with_tools.go`) -/

/-- Matching of one line against the Go regular expression
`^TOOL_CALL:\s*(\S+)\s*$`: after the literal marker come optional whitespace,
one whitespace-free token (the captured tool name), and optional trailing
whitespace. The regex is modelled line-locally; a `\s` spanning a newline
boundary is not modelled. -/
def toolCallLineName (line : String) : Option String :=
  if goHasPrefix line "TOOL_CALL:" then
    let rest := goTrimSpace ⟨line.data.drop 10⟩
    if rest ≠ "" ∧ rest.data.all (fun c => !c.isWhitespace) then some rest
    else none
  else none

/-- Scan for the matching closing brace, counting depth, starting at offset
`pos` in the original text; mirrors the index loop in `parseToolCall`. -/
def braceEndAux : List Char → Int → Nat → Option Nat
  | [], _, _ => none
  | c :: rest, depth, pos =>
    if c = '\x7b' then braceEndAux rest (depth + 1) (pos + 1)
    else if c = '\x7d' then
      if depth - 1 = 0 then some (pos + 1) else braceEndAux rest (depth - 1) (pos + 1)
    else braceEndAux rest depth (pos + 1)

/-- Splitting at the first colon (`strings.SplitN(pair, ":", 2)`); `none` when
the pair has no colon (such pairs are skipped by the argument parser). -/
def splitFirstColon (pair : String) : Option (String × String) :=
  let before := pair.data.takeWhile (fun c => c ≠ ':')
  let rest := pair.data.dropWhile (fun c => c ≠ ':')
  match rest with
  | [] => none
  | _ :: after => some (⟨before⟩, ⟨after⟩)

/-- Model of `parseToolCall` from `executor/react_with_tools.go`: find the
first line matching the `TOOL_CALL:` regex, then look for a `\x7b...\x7d`
block after the first line containing `TOOL_CALL:` and parse it with the
deliberately naive comma/colon splitter (values are plain strings). -/
def parseToolCall (response : String) : Option (String × List (String × JsonValue)) :=
  let lines := splitChar response '\n'
  match lines.findSome? toolCallLineName with
  | none => none
  | some matched =>
    let toolName := goTrimSpace matched
    let args : List (String × JsonValue) :=
      match lines.findIdx? (fun l => goContainsSub l "TOOL_CALL:") with
      | none => []
      | some idx =>
        let jsonStart := idx + 1
        if jsonStart ≥ lines.length then []
        else
          let jsonText := goTrimSpace (goJoin (lines.drop jsonStart) "\n")
          match jsonText.data.findIdx? (fun c => c = '\x7b') with
          | none => []
          | some braceStart =>
            match braceEndAux (jsonText.data.drop braceStart) 0 braceStart with
            | none => []
            | some braceEnd =>
              let jsonBlock : String :=
                ⟨(jsonText.data.drop braceStart).take (braceEnd - braceStart)⟩
              let content := goTrimSpace (trimCutset jsonBlock ['\x7b', '\x7d'])
              if content = "" then []
              else
                (splitChar content ',').foldl (fun acc pair =>
                  match splitFirstColon pair with
                  | none => acc
                  | some (k0, v0) =>
                    assocSet acc (trimCutset (goTrimSpace k0) ['"'])
                      (.str (trimCutset (goTrimSpace v0) ['"']))) []
    some (toolName, args)

/-! ## ReAct loop (`executor/react.go`)

The reasoning backend (`llm.OpenAIClient.Execute`) is an external HTTP
collaborator; inside one ReAct loop it is modelled as an oracle indexed by
the iteration number, returning either the response text and its cost or an
error. -/

/-- Backend oracle for one ReAct loop, indexed by the iteration number. -/
abbrev IterOracle := Nat → LLMConfig → String → String → Except String (String × Cost)

/-- Fill in default model and temperature (`executeLLMNode` uses hard-coded
values, `executeReActNode` the values from the global configuration). -/
def applyLLMDefaults (defModel : String) (defTemp : Cost) (cfg : LLMConfig) : LLMConfig :=
  { cfg with
    Model := if cfg.Model = "" then defModel else cfg.Model
    Temperature := if cfg.Temperature = 0 then defTemp else cfg.Temperature }

/-- Configuration precedence: the node-level LLM config wins over the
spec-level global one. -/
def resolveLLMConfig (nodeCfg : Option LLMConfig) (specCfg : Option Config) :
    Option LLMConfig :=
  match nodeCfg with
  | some c => some c
  | none =>
    match specCfg with
    | some sc => sc.LLM
    | none => none

/-- Default reasoning guidance used by `buildReActSystemPrompt` when the node
declares no custom thinking prompt. -/
def defaultThinkingGuidance : String :=
  "Process:\n1. THINK: What do you currently know? What\x27s missing?\n2. REASON: What should you explore next?\n3. ANSWER: Based on your thinking, what\x27s your current best answer?\n4. CRITIQUE: Is your answer complete and accurate? What could be improved?\n\nIf your answer is satisfactory and complete, start your response with \"FINAL:\" followed by your final answer.\nIf you need more thinking, start with \"CONTINUE:\" and continue reasoning."

/-- Model of `buildReActSystemPrompt` from `executor/react.go`. -/
def buildReActSystemPrompt (goal customThinking : String) : String :=
  let thinkingGuidance :=
    if customThinking = "" then defaultThinkingGuidance else customThinking
  "You are a research and reasoning assistant.\n\nYour goal: " ++ goal ++
    "\n\n" ++ thinkingGuidance ++
    "\n\nIterate and refine your thinking until you have a complete, accurate answer."

/-- Iteration prompt of the plain ReAct loop: iteration 1 states the goal,
later iterations ask the backend to continue or conclude. -/
def iterationPrompt (goal : String) (i : Nat) : String :=
  if i = 1 then "Goal: " ++ goal ++ "\n\nBegin your reasoning. Think step by step."
  else "Continue your reasoning. Critique your previous thoughts and refine your answer. If you have a complete answer, start with \x27FINAL:\x27"

/-- Effective iteration bound: a node-declared `0` means the default of 5;
`Int.toNat` reflects that the Go loop `for i := 1; i <= maxIterations` runs
zero times on a negative bound. -/
def effectiveMaxIterations (m : Int) : Nat :=
  if m = 0 then 5 else m.toNat

/-- Tail of the loop: the trace is finalized from the recorded steps
(`trace.Iterations = len(trace.ThinkingSteps)`). -/
def finishTrace (steps : List ThinkingStep) (tc : Cost) : ReActTrace :=
  { Iterations := steps.length, ThinkingSteps := steps, IterationsCost := tc }

/-- Result quadruple of a ReAct loop (`finalAnswer, totalCost, trace, err`),
plus the number of backend calls made, used to advance the global call
counter of the executor. -/
structure ReActOut where
  answer : String
  cost : Cost
  trace : ReActTrace
  err : Option String
  callsMade : Nat
deriving DecidableEq, Repr

/-- Iteration loop of `executeReActNode`: `remaining` counts the iterations
still allowed, `i` is the 1-based iteration counter, `steps`, `tc` and `fa`
accumulate the thinking steps, the running cost and the provisional final
answer. -/
def reactLoopAux (oracle : IterOracle) (cfg : LLMConfig) (sys goal : String) :
    Nat → Nat → List ThinkingStep → Cost → String → ReActOut
  | 0, _, steps, tc, fa => ⟨fa, tc, finishTrace steps tc, none, steps.length⟩
  | r + 1, i, steps, tc, _fa =>
    match oracle i cfg sys (iterationPrompt goal i) with
    | .error e =>
      ⟨"", tc, finishTrace steps tc,
        some ("iteration " ++ toString i ++ " failed: " ++ e), steps.length + 1⟩
    | .ok (response, cost) =>
      let steps' := steps ++ [⟨i, response, cost, []⟩]
      let tc' := tc + cost
      if goHasPrefix (goTrimSpace response) "FINAL:" then
        ⟨goTrimSpace (stripOnce (goTrimSpace response) "FINAL:"), tc',
          finishTrace steps' tc', none, steps'.length⟩
      else
        reactLoopAux oracle cfg sys goal r (i + 1) steps' tc' response

/-- Model of `executeReActNode` from `executor/react.go`: resolve the LLM
configuration (with the global-config defaults), build the system prompt,
and run the bounded iteration loop. -/
def runReActNode (oracle : IterOracle) (defModel : String) (defTemp : Cost)
    (specConfig : Option Config) (node : Node) : Except String ReActOut :=
  match resolveLLMConfig node.LLM specConfig with
  | none => .error "no LLM configuration found"
  | some cfg0 =>
    let cfg := applyLLMDefaults defModel defTemp cfg0
    let sys := buildReActSystemPrompt node.ReActGoal node.ThinkingPrompt
    .ok (reactLoopAux oracle cfg sys node.ReActGoal
      (effectiveMaxIterations node.MaxIterations) 1 [] 0 "")

/-! ## ReAct loop with tools (`executor/react_with_tools.go`) -/

/-- Tool-execution oracle: models `tools.Manager.ExecuteTool`, which returns a
result or an error (`(*ToolResult, error)` in Go). -/
abbrev ToolOracle := String → List (String × JsonValue) → Except String ToolResult

/-- Truncation of a tool result to 500 characters for the conversation
context (`resultStr[:500] + "... (truncated)"`). -/
def truncate500 (s : String) : String :=
  if s.data.length > 500 then ⟨s.data.take 500⟩ ++ "... (truncated)" else s

/-- Default reasoning guidance of `buildReActSystemPromptWithTools`. -/
def defaultToolsThinkingGuidance : String :=
  "Process:\n1. THINK: What do you currently know? What\x27s missing? What tools can help?\n2. ACT: Call tools to gather information using the TOOL_CALL format\n3. OBSERVE: Review tool results and integrate them into your understanding\n4. REASON: Based on your thinking and tool results, what\x27s your current best answer?\n5. CRITIQUE: Is your answer complete and accurate? Do you need more information?\n\nTo call a tool, use this exact format:\nTOOL_CALL: tool_name\n\x7b\n  \"argument1\": \"value1\",\n  \"argument2\": \"value2\"\n\x7d\n\nIf your answer is satisfactory and complete, start your response with \"FINAL:\" followed by your final answer.\nIf you need more thinking or tool calls, continue reasoning."

/-- Model of `buildReActSystemPromptWithTools`; `toolContext` is the rendered
tool listing obtained from the tool manager. -/
def buildReActSystemPromptWithTools (goal customThinking toolContext : String) : String :=
  let thinkingGuidance :=
    if customThinking = "" then defaultToolsThinkingGuidance else customThinking
  "You are a research and reasoning assistant with access to tools.\n\nYour goal: " ++
    goal ++ "\n\n" ++ toolContext ++ "\n\n" ++ thinkingGuidance ++
    "\n\nIterate and refine your thinking until you have a complete, accurate answer."

/-- Iteration prompt of the tools-enabled ReAct loop; from iteration 2 on it
carries the accumulated conversation context. -/
def toolsIterationPrompt (goal ctx : String) (i : Nat) : String :=
  if i = 1 then
    "Goal: " ++ goal ++ "\n\nYou have access to tools. Use them to help achieve the goal.\n\nBegin your reasoning."
  else
    ctx ++ "\n\nContinue your reasoning. You can:\n1. Call a tool using TOOL_CALL: tool_name format\n2. Finish with FINAL: your_answer"

/-- Outcome of one iteration of the tools-enabled ReAct loop: abort on a
backend error, terminate on a `FINAL:` marker, or continue with the updated
conversation context and the provisional answer. -/
inductive ToolsIterRes where
  | fail (e : String)
  | done (step : ThinkingStep) (cost : Cost) (answer : String) (ctxAfter : String)
  | cont (step : ThinkingStep) (cost : Cost) (provisional : String) (ctxAfter : String)
deriving DecidableEq, Repr

/-- One iteration of `executeReActNodeWithTools`: call the backend, look for a
tool call in the response, execute it, fold the result (or the error, as a
visible `TOOL_RESULT ... ERROR` line) into the conversation context, record
the thinking step, then check for the `FINAL:` marker. -/
def reactToolsIterate (oracle : IterOracle) (toolExec : ToolOracle)
    (cfg : LLMConfig) (sys goal : String) (i : Nat) (ctx : String) : ToolsIterRes :=
  match oracle i cfg sys (toolsIterationPrompt goal ctx i) with
  | .error e => .fail ("iteration " ++ toString i ++ " failed: " ++ e)
  | .ok (response, cost) =>
    let folded : List ToolCallTrace × String :=
      match parseToolCall response with
      | some (name, args) =>
        match toolExec name args with
        | .error msg =>
          ([{ ToolName := name, Arguments := args, Result := none, Error := msg }],
            ctx ++ "\n\nTOOL_RESULT (" ++ name ++ "): ERROR - " ++ msg)
        | .ok tr =>
          ([{ ToolName := name, Arguments := args, Result := some tr.Output, Error := "" }],
            ctx ++ "\n\nTOOL_RESULT (" ++ name ++ "):\n" ++ truncate500 tr.Output)
      | none => ([], ctx ++ "\n\n" ++ response)
    let step : ThinkingStep :=
      { Iteration := i, Thought := response, Cost := cost, ToolCalls := folded.1 }
    if goHasPrefix (goTrimSpace response) "FINAL:" then
      .done step cost (goTrimSpace (stripOnce (goTrimSpace response) "FINAL:")) folded.2
    else
      .cont step cost response folded.2

/-- Iteration loop of `executeReActNodeWithTools`; same accumulator scheme as
`reactLoopAux` plus the threaded conversation context. -/
def reactToolsLoopAux (oracle : IterOracle) (toolExec : ToolOracle)
    (cfg : LLMConfig) (sys goal : String) :
    Nat → Nat → List ThinkingStep → Cost → String → String → ReActOut
  | 0, _, steps, tc, fa, _ => ⟨fa, tc, finishTrace steps tc, none, steps.length⟩
  | r + 1, i, steps, tc, _fa, ctx =>
    match reactToolsIterate oracle toolExec cfg sys goal i ctx with
    | .fail e => ⟨"", tc, finishTrace steps tc, some e, steps.length + 1⟩
    | .done step cost answer _ =>
      let steps' := steps ++ [step]
      ⟨answer, tc + cost, finishTrace steps' (tc + cost), none, steps'.length⟩
    | .cont step cost provisional ctx' =>
      reactToolsLoopAux oracle toolExec cfg sys goal r (i + 1)
        (steps ++ [step]) (tc + cost) provisional ctx'

/-- Model of `executeReActNodeWithTools`: resolve the LLM configuration (this
path applies no model/temperature defaults), build the tools-aware system
prompt, and run the loop. -/
def runReActToolsNode (oracle : IterOracle) (toolExec : ToolOracle)
    (toolContext : String) (specConfig : Option Config) (node : Node) :
    Except String ReActOut :=
  match resolveLLMConfig node.LLM specConfig with
  | none => .error "no LLM configuration found"
  | some cfg =>
    let sys := buildReActSystemPromptWithTools node.ReActGoal node.ThinkingPrompt toolContext
    .ok (reactToolsLoopAux oracle toolExec cfg sys node.ReActGoal
      (effectiveMaxIterations node.MaxIterations) 1 [] 0 "" "")

/-! ## Node-graph interpreter (`executor/executor.go`)

The executor is modelled against an environment that carries the spec, the
reasoning-backend oracle (indexed by a global call counter threaded through
the execution state) and the tool-manager resolution oracle.
`getOrCreateToolManager` builds providers from HTTP catalogs and OAuth flows;
that external construction is abstracted as `providerFor`, returning the
interface the executor actually uses (`HasTools`, `GetToolContext`,
`ExecuteTool`). -/

/-- Interface of a resolved `tools.Manager` as used by the executor. -/
structure ToolMgrI where
  hasTools : Bool
  toolContext : String
  executeTool : ToolOracle

/-- Environment of one `Executor` run. `defaultModel` and
`defaultTemperature` model `config.Get().OpenAI` used by `executeReActNode`;
`nowStamp` models the RFC3339 timestamp written into `Metadata.ExecutedAt`. -/
structure ExecEnv where
  spec : AgentSpec
  llm : Nat → LLMConfig → String → String → Except String (String × Cost)
  providerFor : String → Except String ToolMgrI
  defaultModel : String := "gpt-3.5-turbo"
  defaultTemperature : Cost := 7 / 10
  nowStamp : String := ""

/-- Mutable executor state: the `results` map (`map[string]*spec.NodeResult`)
and the number of backend calls made so far. -/
structure ExecState where
  results : List (String × NodeResult) := []
  calls : Nat := 0
deriving DecidableEq, Repr

/-- Result triple of one node-type executor (`output, cost, err`), together
with the ReAct trace (recorded even when the loop failed) and the updated
state. -/
structure NodeOut where
  out : Except String String
  cost : Cost := 0
  rtrace : Option ReActTrace := none
  st : ExecState

/-- Model of `Executor.getToolManagerForNode`: node-level tools configuration
wins, then the agent-level one; no configuration resolves to no manager. -/
def getToolManagerForNode (env : ExecEnv) (node : Node) :
    Except String (Option ToolMgrI) :=
  match node.Config with
  | some c =>
    match c.Tools with
    | some t => (env.providerFor t.Provider).map some
    | none =>
      match env.spec.Config with
      | some sc =>
        match sc.Tools with
        | some t => (env.providerFor t.Provider).map some
        | none => .ok none
      | none => .ok none
  | none =>
    match env.spec.Config with
    | some sc =>
      match sc.Tools with
      | some t => (env.providerFor t.Provider).map some
      | none => .ok none
    | none => .ok none

/-- Substitution of the literal `\x7b\x7binput\x7d\x7d` placeholder in the
argument map with the accumulated input (`executeToolNode`). -/
def substInputArgs (args : List (String × JsonValue)) (input : String) :
    List (String × JsonValue) :=
  args.map (fun p =>
    match p.2 with
    | .str s => if s = "\x7b\x7binput\x7d\x7d" then (p.1, .str input) else p
    | _ => p)

/-- Model of `Executor.executeLLMNode`: resolve the configuration, apply the
hard-coded defaults (`gpt-3.5-turbo`, temperature 0.7), and make one backend
call. -/
def executeLLMNode (env : ExecEnv) (node : Node) (input : String)
    (st : ExecState) : NodeOut :=
  match resolveLLMConfig node.LLM env.spec.Config with
  | none => { out := .error "no LLM configuration found", st := st }
  | some cfg0 =>
    let cfg := applyLLMDefaults "gpt-3.5-turbo" (7 / 10) cfg0
    match env.llm st.calls cfg node.Prompt input with
    | .error e => { out := .error e, st := { st with calls := st.calls + 1 } }
    | .ok (output, cost) =>
      { out := .ok output, cost := cost, st := { st with calls := st.calls + 1 } }

/-- Model of `Executor.executeToolNode`: resolve the tool manager, require a
tool name, substitute the input placeholder, execute the tool, and fail on a
tool error or on a result with `success=false`. -/
def executeToolNode (env : ExecEnv) (node : Node) (input : String)
    (st : ExecState) : NodeOut :=
  match getToolManagerForNode env node with
  | .error e => { out := .error ("failed to get tool manager: " ++ e), st := st }
  | .ok none =>
    { out := .error "tool manager not initialized - tools not configured", st := st }
  | .ok (some mgr) =>
    if node.ToolName = "" then
      { out := .error "tool_name is required for tool nodes", st := st }
    else
      let args := substInputArgs (node.ToolArguments.getD []) input
      match mgr.executeTool node.ToolName args with
      | .error e => { out := .error ("tool execution failed: " ++ e), st := st }
      | .ok result =>
        if !result.Success then
          { out := .error ("tool returned error: " ++ result.Error), st := st }
        else { out := .ok result.Output, st := st }

/-- Derived per-iteration oracle for a ReAct loop starting after `base`
backend calls: iteration `i` is the global call `base + (i - 1)`. -/
def iterOracleFrom (env : ExecEnv) (base : Nat) : IterOracle :=
  fun i cfg sys usr => env.llm (base + (i - 1)) cfg sys usr

/-- Dispatch of the `react` case of `executeNode`: choose the tools-enabled
loop when the node enables tools and the resolved manager has tools. -/
def executeReActDispatch (env : ExecEnv) (node : Node) (st : ExecState) : NodeOut :=
  let plain : NodeOut :=
    match runReActNode (iterOracleFrom env st.calls) env.defaultModel
        env.defaultTemperature env.spec.Config node with
    | .error e => { out := .error e, st := st }
    | .ok o =>
      let st' := { st with calls := st.calls + o.callsMade }
      match o.err with
      | some e => { out := .error e, cost := o.cost, rtrace := some o.trace, st := st' }
      | none => { out := .ok o.answer, cost := o.cost, rtrace := some o.trace, st := st' }
  if node.ToolsEnabled then
    match getToolManagerForNode env node with
    | .error e => { out := .error ("failed to get tool manager: " ++ e), st := st }
    | .ok mgrOpt =>
      match mgrOpt with
      | some mgr =>
        if mgr.hasTools then
          match runReActToolsNode (iterOracleFrom env st.calls) mgr.executeTool
              mgr.toolContext env.spec.Config node with
          | .error e => { out := .error e, st := st }
          | .ok o =>
            let st' := { st with calls := st.calls + o.callsMade }
            match o.err with
            | some e =>
              { out := .error e, cost := o.cost, rtrace := some o.trace, st := st' }
            | none =>
              { out := .ok o.answer, cost := o.cost, rtrace := some o.trace, st := st' }
        else plain
      | none => plain
  else plain

/-- Lookup in the executor's node map (`nodeMap[node.ID] = &node` built front
to back, so a later duplicate id wins). -/
def nodeMapGet (nodes : List Node) (id : String) : Option Node :=
  nodes.foldl (fun acc n => if n.ID = id then some n else acc) none

/-- Model of `Executor.executeNode`: look the node up, dispatch on its type
tag, and record a `NodeResult` (`failed` with the error, or `success` with
the output) in the results map. -/
def executeNode (env : ExecEnv) (nodeID input : String) (st : ExecState) :
    Except String String × ExecState :=
  match nodeMapGet env.spec.Nodes nodeID with
  | none => (.error ("node not found: " ++ nodeID), st)
  | some node =>
    let d : NodeOut :=
      if node.NodeType = "llm" then executeLLMNode env node input st
      else if node.NodeType = "react" then executeReActDispatch env node st
      else if node.NodeType = "tool" then executeToolNode env node input st
      else { out := .error ("unsupported node type: " ++ node.NodeType), st := st }
    let base : NodeResult :=
      { NodeID := nodeID, Input := input, Status := "running", Cost := d.cost,
        ReActTrace := d.rtrace }
    match d.out with
    | .error e =>
      (.error e,
        { d.st with
          results := assocSet d.st.results nodeID
            { base with Status := "failed", Error := e } })
    | .ok output =>
      (.ok output,
        { d.st with
          results := assocSet d.st.results nodeID
            { base with Status := "success", Output := output } })

/-- Model of `Executor.findNodesFrom`: targets of all routes leaving the
given node, in declaration order. -/
def findNodesFrom (routes : List Route) (fromID : String) : List String :=
  (routes.filter (fun r => r.From == fromID)).map (fun r => r.To)

/-- Model of `Executor.followRoutes`, inlined with its iteration over the
outgoing targets. The Go recursion has no termination guarantee on cyclic
route tables, so the model consumes `fuel`; `none` means the fuel ran out
(the Go program would still be recurring). A target `end` terminates the
walk with the accumulated output. -/
def followListFuel (env : ExecEnv) :
    Nat → List String → String → ExecState → Option (Except String String × ExecState)
  | 0, _, _, _ => none
  | _ + 1, [], current, st => some (.ok current, st)
  | fuel + 1, nodeID :: rest, current, st =>
    if nodeID = "end" then some (.ok current, st)
    else
      match executeNode env nodeID current st with
      | (.error e, st') => some (.error e, st')
      | (.ok output, st') =>
        match followListFuel env fuel (findNodesFrom env.spec.Routes nodeID) output st' with
        | none => none
        | some (.error e, st'') => some (.error e, st'')
        | some (.ok nextOutput, st'') => followListFuel env fuel rest nextOutput st''

/-- Loop of `Executor.Execute` over the starting nodes: execute each one,
then follow its outgoing routes, wrapping errors the way `Execute` does. -/
def execStartList (env : ExecEnv) (fuel : Nat) :
    List String → String → ExecState → Option (Except String String × ExecState)
  | [], current, st => some (.ok current, st)
  | nodeID :: rest, current, st =>
    match executeNode env nodeID current st with
    | (.error e, st') =>
      some (.error ("execution failed at node " ++ nodeID ++ ": " ++ e), st')
    | (.ok output, st') =>
      match followListFuel env fuel (findNodesFrom env.spec.Routes nodeID) output st' with
      | none => none
      | some (.error e, st'') => some (.error ("routing failed: " ++ e), st'')
      | some (.ok nextOutput, st'') => execStartList env fuel rest nextOutput st''

/-- Total cost computed by `Execute`: the running `totalCost += result.Cost`
sum over the results map. -/
def computeTotalCost (results : List (String × NodeResult)) : Cost :=
  results.foldl (fun acc p => acc + p.2.Cost) 0

/-- Zero value of `Metadata` (`&spec.Metadata{}` in Go). -/
def emptyMetadata : Metadata := {}

/-- Model of `Executor.Execute`: initialize the metadata, find the routes
leaving `start` (failing with the entry-point error when there are none),
run the starting nodes, and on success record `success` status, the summed
total cost and the flattened results map in the metadata. The returned
triple is (result, final executor state, final `spec.Metadata`). -/
def ExecuteFuel (env : ExecEnv) (fuel : Nat) (input : String) :
    Option (Except String String × ExecState × Metadata) :=
  let md0 : Metadata :=
    { (env.spec.Metadata.getD emptyMetadata) with
      ExecutedAt := env.nowStamp, Status := "running" }
  let st0 : ExecState := {}
  let startingNodes := findNodesFrom env.spec.Routes "start"
  if startingNodes.isEmpty then
    some (.error "no routes from \x27start\x27 found", st0, md0)
  else
    match execStartList env fuel startingNodes input st0 with
    | none => none
    | some (.error e, st) => some (.error e, st, { md0 with Status := "failed" })
    | some (.ok output, st) =>
      some (.ok output, st,
        { md0 with
          Status := "success",
          TotalCost := computeTotalCost st.results,
          NodeResults := st.results.map (fun p => p.2) })

/-! ## Execution-manager validation gate (`execution/manager.go`) -/

/-- Message of `execution.ErrInvalidSpec`. -/
def ErrInvalidSpec : String := "invalid agent specification"

/-- Validation step at the top of `Manager.Execute`: a spec failing
`ValidateSpec` is rejected, wrapped in `ErrInvalidSpec`, before any
execution state is allocated. -/
def managerValidate (s : AgentSpec) : Except String Unit :=
  match ValidateSpec s with
  | .error e => .error (ErrInvalidSpec ++ ": " ++ e)
  | .ok _ => .ok ()

/-! ## Tool registry and manager (`tools/registry.go`, `tools/manager.go`) -/

/-- Model of `tools.Registry`: the name-indexed tool store. -/
structure Registry where
  tools : List (String × ToolDefinition) := []
deriving DecidableEq, Repr

/-- Model of `Registry.Register`: an empty name is rejected; otherwise the
definition is stored under its name, replacing any previous entry. -/
def Registry.registerTool (r : Registry) (t : ToolDefinition) : Except String Registry :=
  if t.Name = "" then .error "tool name cannot be empty"
  else .ok { tools := assocSet r.tools t.Name t }

/-- Model of `Registry.Get`. -/
def Registry.get (r : Registry) (name : String) : Except String ToolDefinition :=
  match lookupAssoc r.tools name with
  | some t => .ok t
  | none => .error ("tool not found: " ++ name)

/-- Model of `Registry.Count`. -/
def Registry.count (r : Registry) : Nat := r.tools.length

/-- Model of a `tools.ToolProvider` as observed by `RegisterProvider`: its
name and the outcome of `ListTools`. -/
structure ProviderModel where
  name : String
  listToolsResult : Except String (List ToolDefinition)

/-- Model of `tools.Manager`: providers keyed by provider name plus the
shared registry. -/
structure ManagerModel where
  providers : List (String × ProviderModel) := []
  registry : Registry := {}

/-- Rendering of `tools.ProviderError` with a cause. -/
def providerErrMsg (p msg cause : String) : String :=
  "provider \x27" ++ p ++ "\x27 error: " ++ msg ++ " (cause: " ++ cause ++ ")"

/-- Registration loop of `Manager.RegisterProvider` over the provider's
tools; a registration error is wrapped as a provider error. -/
def registerAll (pn : String) (r : Registry) : List ToolDefinition → Except String Registry
  | [] => .ok r
  | t :: ts =>
    match r.registerTool t with
    | .error e => .error (providerErrMsg pn ("failed to register tool " ++ t.Name) e)
    | .ok r' => registerAll pn r' ts

/-- Model of `Manager.RegisterProvider`: duplicate provider names are
rejected; the provider's tools are loaded and registered one by one into the
shared registry; finally the provider itself is indexed. -/
def ManagerModel.registerProvider (m : ManagerModel) (p : ProviderModel) :
    Except String ManagerModel :=
  if (lookupAssoc m.providers p.name).isSome then
    .error ("provider already registered: " ++ p.name)
  else
    match p.listToolsResult with
    | .error e => .error (providerErrMsg p.name "failed to list tools" e)
    | .ok ts =>
      match registerAll p.name m.registry ts with
      | .error e => .error e
      | .ok reg => .ok { providers := assocSet m.providers p.name p, registry := reg }

/-! ## Execution storage (`execution/storage.go`, `execution/execution.go`)

On-disk persistence is modelled in two layers: the data layer
(`buildTraceData`/`parseTraceData`, which fully determine what `Save`
serializes and what `Load` reconstructs) and the syscall layer (the sequence
of filesystem operations issued by `Save` and `SaveOutput`). Timestamps go
through an RFC3339 rendering that round-trips the instant; they are modelled
as opaque instants (`GoTime`). -/

/-- Opaque timestamp instant (`time.Time`); the RFC3339 serialization used by
`Save`/`Load` round-trips it and is modelled as the identity. -/
structure GoTime where
  ns : Int
deriving DecidableEq, Repr

/-- Model of `execution.Result`. -/
structure ExecResult where
  Output : String := ""
  Error : String := ""
  DurationMs : Int := 0
  TotalCost : Cost := 0
  Metadata : Option Metadata := none
deriving DecidableEq, Repr

/-- Model of `execution.Execution` (`Spec` is a possibly-nil pointer). -/
structure Execution where
  ID : String
  Spec : Option AgentSpec := none
  Status : String
  Result : Option ExecResult := none
  CreatedAt : GoTime
  StartedAt : Option GoTime := none
  EndedAt : Option GoTime := none
deriving DecidableEq, Repr

/-- The injected `metadata` object of `trace.json`; an `Option` field models
a key that `buildTraceData` only sets conditionally. -/
structure TraceMeta where
  execution_id : String
  status : String
  created_at : GoTime
  started_at : Option GoTime := none
  ended_at : Option GoTime := none
  duration_ms : Option Int := none
  total_cost : Option Cost := none
  error : Option String := none
  executed_at : Option String := none
  execution_time_ms : Option Int := none
  node_results : Option (List NodeResult) := none
deriving DecidableEq, Repr

/-- Content of `trace.json`: the flattened spec fields plus the injected
`metadata` object. The spec's own `metadata` JSON key is overwritten by the
injected one, which is modelled by erasing `Metadata` from the stored spec. -/
structure TraceData where
  specFields : Option AgentSpec
  metadata : TraceMeta
deriving DecidableEq, Repr

/-- Model of `FileSystemStorage.buildTraceData`. -/
def buildTraceData (exec : Execution) : TraceData :=
  { specFields := exec.Spec.map (fun s => { s with Metadata := none })
    metadata :=
      { execution_id := exec.ID
        status := exec.Status
        created_at := exec.CreatedAt
        started_at := exec.StartedAt
        ended_at := exec.EndedAt
        duration_ms := exec.Result.map (fun r => r.DurationMs)
        total_cost := exec.Result.map (fun r => r.TotalCost)
        error := exec.Result.bind (fun r => if r.Error = "" then none else some r.Error)
        executed_at := exec.Result.bind (fun r => r.Metadata.map (fun m => m.ExecutedAt))
        execution_time_ms :=
          exec.Result.bind (fun r => r.Metadata.map (fun m => m.ExecutionTimeMs))
        node_results := exec.Result.bind (fun r => r.Metadata.map (fun m => m.NodeResults)) } }

/-- Zero value of `spec.AgentSpec`, produced when `Load` unmarshals a trace
whose spec part is empty. -/
def emptyAgentSpec : AgentSpec := { Version := "", Goal := "", Nodes := [], Routes := [] }

/-- Model of `FileSystemStorage.parseTraceData`: a `Result` is reconstructed
only when the `duration_ms` key is present, and only from `duration_ms`,
`total_cost` and `error` — the output text and the result metadata are not
read back. -/
def parseTraceData (td : TraceData) (id : String) : Execution :=
  { ID := id
    Spec := some { (td.specFields.getD emptyAgentSpec) with Metadata := none }
    Status := td.metadata.status
    Result := td.metadata.duration_ms.map (fun d =>
      { Output := ""
        Error := (td.metadata.error.getD "")
        DurationMs := d
        TotalCost := (td.metadata.total_cost.getD 0)
        Metadata := none })
    CreatedAt := td.metadata.created_at
    StartedAt := td.metadata.started_at
    EndedAt := td.metadata.ended_at }

/-- Composition `Load ∘ Save` at the data layer: what `Load` returns for an
execution that was just saved. -/
def loadOfSave (exec : Execution) : Execution :=
  parseTraceData (buildTraceData exec) exec.ID

/-! ### Syscall layer of `Save` and `SaveOutput` -/

/-- Filesystem operations issued by the storage layer, in order. -/
inductive FsOp where
  | mkdirAll (path : String)
  | writeFile (path : String) (data : String)
  | rename (src dst : String)
deriving DecidableEq, Repr

/-- Model of `filepath.Join` for the two-component joins used here. -/
def joinPath (a b : String) : String := a ++ "/" ++ b

/-- Model of `FileSystemStorage.executionDir`. -/
def executionDir (basePath id : String) : String := joinPath basePath id

/-- Operations issued by the happy path of `FileSystemStorage.Save`;
`marshal` abstracts the JSON rendering of the trace data. -/
def saveOps (marshal : TraceData → String) (basePath : String) (exec : Execution) :
    List FsOp :=
  let execDir := executionDir basePath exec.ID
  let data := marshal (buildTraceData exec)
  let traceFile := joinPath execDir "trace.json"
  let tempFile := traceFile ++ ".tmp"
  [.mkdirAll execDir, .writeFile tempFile data, .rename tempFile traceFile]

/-- Operations issued by `FileSystemStorage.SaveOutput`. -/
def saveOutputOps (basePath id output : String) : List FsOp :=
  [.writeFile (joinPath (executionDir basePath id) "output.txt") output]

/-- The temp-file+rename pattern for a target path: the target itself is
never written directly, and some distinct temporary file is written and then
renamed over the target. -/
def tempRenamePattern (ops : List FsOp) (target : String) : Prop :=
  (∀ d, FsOp.writeFile target d ∉ ops) ∧
  ∃ tmp data, tmp ≠ target ∧ FsOp.writeFile tmp data ∈ ops ∧ FsOp.rename tmp target ∈ ops

/-! ## Shared lemmas -/

/-- Helper: the running-sum loop of `Execute` computes the list sum of the
per-entry costs. -/
theorem computeTotalCost_foldl (l : List (String × NodeResult)) :
    ∀ a : Cost, l.foldl (fun acc p => acc + p.2.Cost) a =
      a + ((l.map (fun p => p.2)).map NodeResult.Cost).sum := by
  induction l with
  | nil => intro a; simp
  | cons h t ih => intro a; simp [ih, add_assoc]

/-- Helper: `computeTotalCost` as a list sum over the flattened results. -/
theorem computeTotalCost_eq_sum (l : List (String × NodeResult)) :
    computeTotalCost l = ((l.map (fun p => p.2)).map NodeResult.Cost).sum := by
  simpa [computeTotalCost] using computeTotalCost_foldl l 0

/-- Helper: a route table with no route leaving `start` yields no starting
nodes. -/
theorem findNodesFrom_start_nil (routes : List Route)
    (h : ∀ r ∈ routes, r.From ≠ "start") : findNodesFrom routes "start" = [] := by
  have hf : routes.filter (fun r => r.From == "start") = [] := by
    rw [List.filter_eq_nil_iff]
    intro r hr
    simpa using h r hr
  simp [findNodesFrom, hf]

/-! ## C1: total cost equals the sum of the recorded node costs -/

/-- C1. After a successful `Execute` run, the `TotalCost` recorded in the
metadata equals the sum of the `Cost` fields of all entries recorded in
`Metadata.NodeResults`. -/
theorem execute_totalCost_eq_sum_nodeResults (env : ExecEnv) (fuel : Nat)
    (input output : String) (st : ExecState) (md : Metadata)
    (h : ExecuteFuel env fuel input = some (.ok output, st, md)) :
    md.TotalCost = (md.NodeResults.map NodeResult.Cost).sum := by
  unfold ExecuteFuel at h
  dsimp only at h
  split at h
  · simp at h
  · split at h
    · simp at h
    · simp at h
    · rw [Option.some_inj] at h
      simp only [Prod.mk.injEq, Except.ok.injEq] at h
      obtain ⟨-, -, hmd⟩ := h
      subst hmd
      simpa using computeTotalCost_eq_sum _

/-- Concrete one-node spec used by the C1 witness. -/
def c1Spec : AgentSpec :=
  { Version := "1", Goal := "g",
    Nodes := [{ ID := "n1", NodeType := "llm", Prompt := "p",
                LLM := some { Provider := "openai", Model := "m" } }],
    Routes := [{ From := "start", To := "n1" }, { From := "n1", To := "end" }] }

/-- Concrete environment used by the C1 witness. -/
def c1Env : ExecEnv :=
  { spec := c1Spec, llm := fun _ _ _ _ => .ok ("hello", 1 / 100),
    providerFor := fun _ => .error "no tools" }

/-- Node result produced by the C1 witness run. -/
def c1Result : NodeResult :=
  { NodeID := "n1", Status := "success", Cost := 1 / 100, Input := "", Output := "hello" }

/-- Final state of the C1 witness run. -/
def c1St : ExecState := { results := [("n1", c1Result)], calls := 1 }

/-- Final metadata of the C1 witness run. -/
def c1Md : Metadata := { TotalCost := 1 / 100, Status := "success", NodeResults := [c1Result] }

/-- Witness for C1: a concrete successful run satisfying the hypothesis. -/
theorem execute_totalCost_eq_sum_nodeResults_witness :
    ExecuteFuel c1Env 3 "" = some (.ok "hello", c1St, c1Md) ∧
    c1Md.TotalCost = (c1Md.NodeResults.map NodeResult.Cost).sum :=
  ⟨by with_unfolding_all rfl,
    execute_totalCost_eq_sum_nodeResults c1Env 3 "" "hello" c1St c1Md
      (by with_unfolding_all rfl)⟩

/-! ## C2: missing entry point fails before any node executes -/

/-- C2. For a spec with no route whose `from` is `start`, `Execute` fails
immediately with the entry-point error; the returned state is the initial
one, so the recorded node-results map is empty. -/
theorem execute_no_entry_point (env : ExecEnv) (fuel : Nat) (input : String)
    (h : ∀ r ∈ env.spec.Routes, r.From ≠ "start") :
    ExecuteFuel env fuel input =
      some (.error "no routes from \x27start\x27 found", { results := [], calls := 0 },
        { (env.spec.Metadata.getD emptyMetadata) with
          ExecutedAt := env.nowStamp, Status := "running" }) ∧
    (({ results := [], calls := 0 } : ExecState)).results = [] := by
  refine ⟨?_, rfl⟩
  unfold ExecuteFuel
  dsimp only
  rw [findNodesFrom_start_nil env.spec.Routes h]
  simp

/-- Concrete spec used by the C2 witness: one route, not from `start`. -/
def c2Spec : AgentSpec :=
  { Version := "1", Goal := "g",
    Nodes := [{ ID := "a", NodeType := "llm", Prompt := "p" }],
    Routes := [{ From := "a", To := "end" }] }

/-- Concrete environment used by the C2 witness. -/
def c2Env : ExecEnv :=
  { spec := c2Spec, llm := fun _ _ _ _ => .ok ("x", 0),
    providerFor := fun _ => .error "no tools" }

/-- Witness for C2 at a concrete spec without entry routes. -/
theorem execute_no_entry_point_witness :
    c2Env.spec.Routes.all (fun r => r.From != "start") = true ∧
    ExecuteFuel c2Env 5 "" =
      some (.error "no routes from \x27start\x27 found", { results := [], calls := 0 },
        { (c2Env.spec.Metadata.getD emptyMetadata) with
          ExecutedAt := c2Env.nowStamp, Status := "running" }) :=
  ⟨by decide, (execute_no_entry_point c2Env 5 "" (by decide)).1⟩

/-! ## C3 and C4: termination behavior of the plain ReAct loop -/

/-- Helper: a string prefixed by `p` passes the `goHasPrefix` test. -/
theorem goHasPrefix_append (p x : String) : goHasPrefix (p ++ x) p = true := by
  simp [goHasPrefix, String.data_append, List.isPrefixOf_iff_prefix]

/-- Helper: stripping `p` from `p ++ x` leaves `x`. -/
theorem stripOnce_append (p x : String) : stripOnce (p ++ x) p = x := by
  rw [stripOnce, goHasPrefix_append]
  simp only [if_true, String.data_append]
  rw [List.drop_left]

/-- Helper: when the backend never errors and never produces a `FINAL:`
response, the loop with `r + 1` remaining iterations finishes with no error,
records exactly `r + 1` more steps, and answers with the response of the last
call (iteration `i + r`). -/
theorem reactLoopAux_no_final (oracle : IterOracle) (cfg : LLMConfig) (sys goal : String)
    (h : ∀ i u, ∃ t c, oracle i cfg sys u = .ok (t, c) ∧
        goHasPrefix (goTrimSpace t) "FINAL:" = false) :
    ∀ (r i : Nat) (steps : List ThinkingStep) (tc : Cost) (fa : String),
      (reactLoopAux oracle cfg sys goal (r + 1) i steps tc fa).err = none ∧
      (reactLoopAux oracle cfg sys goal (r + 1) i steps tc fa).trace.Iterations
        = steps.length + (r + 1) ∧
      ∃ c, oracle (i + r) cfg sys (iterationPrompt goal (i + r)) =
        .ok ((reactLoopAux oracle cfg sys goal (r + 1) i steps tc fa).answer, c) := by
  intro r
  induction r with
  | zero =>
    intro i steps tc fa
    obtain ⟨t, c, hok, hnf⟩ := h i (iterationPrompt goal i)
    have heq : reactLoopAux oracle cfg sys goal 1 i steps tc fa =
        ⟨t, tc + c,
          finishTrace (steps ++ [({ Iteration := i, Thought := t, Cost := c } : ThinkingStep)])
            (tc + c),
          none,
          (steps ++ [({ Iteration := i, Thought := t, Cost := c } : ThinkingStep)]).length⟩ := by
      simp only [reactLoopAux]
      rw [hok]
      simp [hnf]
    rw [heq]
    exact ⟨rfl, by simp [finishTrace], c, by simpa using hok⟩
  | succ r ih =>
    intro i steps tc fa
    obtain ⟨t, c, hok, hnf⟩ := h i (iterationPrompt goal i)
    have heq : reactLoopAux oracle cfg sys goal (r + 1 + 1) i steps tc fa =
        reactLoopAux oracle cfg sys goal (r + 1) (i + 1) (steps ++ [⟨i, t, c, []⟩])
          (tc + c) t := by
      conv_lhs => rw [reactLoopAux]
      rw [hok]
      simp [hnf]
    obtain ⟨h1, h2, c', h3⟩ := ih (i + 1) (steps ++ [⟨i, t, c, []⟩]) (tc + c) t
    rw [heq]
    refine ⟨h1, ?_, ?_⟩
    · rw [h2]; simp; omega
    · have hidx : i + (r + 1) = i + 1 + r := by omega
      rw [hidx]
      exact ⟨c', h3⟩

/-- C3 (amended). A react node with a nonnegative declared max-iterations
whose backend never errors and never emits a `FINAL:`-prefixed response runs
exactly `effectiveMaxIterations` iterations (default 5 when 0 is declared)
and returns the last raw backend response with no error. -/
theorem react_exhaustion_returns_last (oracle : IterOracle) (defModel : String)
    (defTemp : Cost) (specConfig : Option Config) (node : Node) (cfg0 : LLMConfig)
    (hm : 0 ≤ node.MaxIterations)
    (hcfg : resolveLLMConfig node.LLM specConfig = some cfg0)
    (h : ∀ i u, ∃ t c,
        oracle i (applyLLMDefaults defModel defTemp cfg0)
          (buildReActSystemPrompt node.ReActGoal node.ThinkingPrompt) u = .ok (t, c) ∧
        goHasPrefix (goTrimSpace t) "FINAL:" = false) :
    ∃ out, runReActNode oracle defModel defTemp specConfig node = .ok out ∧
      out.err = none ∧
      out.trace.Iterations = effectiveMaxIterations node.MaxIterations ∧
      ∃ c, oracle (effectiveMaxIterations node.MaxIterations)
          (applyLLMDefaults defModel defTemp cfg0)
          (buildReActSystemPrompt node.ReActGoal node.ThinkingPrompt)
          (iterationPrompt node.ReActGoal (effectiveMaxIterations node.MaxIterations)) =
        .ok (out.answer, c) := by
  have heff : 1 ≤ effectiveMaxIterations node.MaxIterations := by
    unfold effectiveMaxIterations
    split
    · omega
    · omega
  obtain ⟨k, hk⟩ : ∃ k, effectiveMaxIterations node.MaxIterations = k + 1 :=
    ⟨effectiveMaxIterations node.MaxIterations - 1, by omega⟩
  obtain ⟨he, hi, c, ha⟩ := reactLoopAux_no_final oracle
    (applyLLMDefaults defModel defTemp cfg0)
    (buildReActSystemPrompt node.ReActGoal node.ThinkingPrompt) node.ReActGoal h k 1 [] 0 ""
  refine ⟨_, ?_, he, ?_, ?_⟩
  · unfold runReActNode
    rw [hcfg]
    simp [hk]
  · rw [hi, hk]
    simp
  · rw [hk]
    rw [Nat.add_comm 1 k] at ha
    exact ⟨c, ha⟩

/-- Concrete react node declaring a negative max-iterations. -/
def c3Node : Node :=
  { ID := "r1", NodeType := "react", MaxIterations := -1, ReActGoal := "g",
    LLM := some { Provider := "openai", Model := "m", Temperature := 1 } }

/-- Concrete backend that always answers `x` (never `FINAL:`, never an error). -/
def c3Oracle : IterOracle := fun _ _ _ _ => .ok ("x", 0)

/-- Counterexample for C3 as stated: with a declared max-iterations of `-1`
and a backend that never emits `FINAL:`, the loop body never runs — zero
iterations are recorded (not the declared number, nor the default 5) and the
empty string (not any backend response) is returned with no error. -/
theorem react_negative_max_counterexample :
    c3Node.MaxIterations = -1 ∧
    goHasPrefix (goTrimSpace "x") "FINAL:" = false ∧
    runReActNode c3Oracle "gpt-3.5-turbo" (7 / 10) none c3Node =
      .ok { answer := "", cost := 0,
            trace := { Iterations := 0, ThinkingSteps := [], IterationsCost := 0 },
            err := none, callsMade := 0 } ∧
    ((0 : Int) ≠ c3Node.MaxIterations ∧ (0 : Nat) ≠ 5 ∧ ("" : String) ≠ "x") := by
  refine ⟨rfl, by decide, by with_unfolding_all rfl, by decide, by decide, by decide⟩

/-- Concrete node and backend for the C3 witness. -/
def c3wNode : Node :=
  { ID := "r1", NodeType := "react", MaxIterations := 2, ReActGoal := "g",
    LLM := some { Provider := "openai", Model := "m", Temperature := 1 } }

/-- Backend for the C3 witness: always `x`, never `FINAL:`. -/
def c3wOracle : IterOracle := fun _ _ _ _ => .ok ("x", 0)

/-- Witness for C3 (amended) at a concrete two-iteration node. -/
theorem react_exhaustion_returns_last_witness :
    ∃ out, runReActNode c3wOracle "gpt-3.5-turbo" (7 / 10) none c3wNode = .ok out ∧
      out.err = none ∧
      out.trace.Iterations = effectiveMaxIterations c3wNode.MaxIterations ∧
      ∃ c, c3wOracle (effectiveMaxIterations c3wNode.MaxIterations)
          (applyLLMDefaults "gpt-3.5-turbo" (7 / 10)
            { Provider := "openai", Model := "m", Temperature := 1 })
          (buildReActSystemPrompt c3wNode.ReActGoal c3wNode.ThinkingPrompt)
          (iterationPrompt c3wNode.ReActGoal (effectiveMaxIterations c3wNode.MaxIterations)) =
        .ok (out.answer, c) :=
  react_exhaustion_returns_last c3wOracle "gpt-3.5-turbo" (7 / 10) none c3wNode
    { Provider := "openai", Model := "m", Temperature := 1 }
    (by decide) rfl (fun i u => ⟨"x", 0, rfl, by decide⟩)

/-- C4. A react node whose backend answers a `FINAL: X`-marked response on
the first iteration terminates after exactly one iteration; the answer is
`X` with surrounding whitespace trimmed and the trace records one step. -/
theorem react_final_first_iteration (oracle : IterOracle) (defModel : String)
    (defTemp : Cost) (specConfig : Option Config) (node : Node) (cfg0 : LLMConfig)
    (r x : String) (c : Cost)
    (hcfg : resolveLLMConfig node.LLM specConfig = some cfg0)
    (hmax : 1 ≤ effectiveMaxIterations node.MaxIterations)
    (hresp : oracle 1 (applyLLMDefaults defModel defTemp cfg0)
        (buildReActSystemPrompt node.ReActGoal node.ThinkingPrompt)
        (iterationPrompt node.ReActGoal 1) = .ok (r, c))
    (hfinal : goTrimSpace r = "FINAL:" ++ x) :
    ∃ out, runReActNode oracle defModel defTemp specConfig node = .ok out ∧
      out.trace.Iterations = 1 ∧
      out.answer = goTrimSpace x ∧
      out.err = none ∧
      out.trace.ThinkingSteps = [{ Iteration := 1, Thought := r, Cost := c }] := by
  obtain ⟨k, hk⟩ : ∃ k, effectiveMaxIterations node.MaxIterations = k + 1 :=
    ⟨effectiveMaxIterations node.MaxIterations - 1, by omega⟩
  have hrun : reactLoopAux oracle (applyLLMDefaults defModel defTemp cfg0)
      (buildReActSystemPrompt node.ReActGoal node.ThinkingPrompt) node.ReActGoal
      (k + 1) 1 [] 0 "" =
      ⟨goTrimSpace x, 0 + c, finishTrace [⟨1, r, c, []⟩] (0 + c), none, 1⟩ := by
    simp only [reactLoopAux]
    rw [hresp]
    simp only [hfinal, goHasPrefix_append, if_true]
    simp [stripOnce_append, finishTrace]
  refine ⟨{ answer := goTrimSpace x, cost := 0 + c,
            trace := finishTrace [{ Iteration := 1, Thought := r, Cost := c }] (0 + c),
            err := none, callsMade := 1 },
      ?_, by simp [finishTrace], rfl, rfl, by simp [finishTrace]⟩
  unfold runReActNode
  rw [hcfg]
  simp only [hk]
  rw [hrun]

/-- Concrete node, backend and response for the C4 witness. -/
def c4Node : Node :=
  { ID := "r1", NodeType := "react", MaxIterations := 0, ReActGoal := "g",
    LLM := some { Provider := "openai", Model := "m", Temperature := 1 } }

/-- Backend for the C4 witness: `FINAL: 42` on every call. -/
def c4Oracle : IterOracle := fun _ _ _ _ => .ok ("FINAL: 42", 0)

/-- Witness for C4: the concrete loop stops at iteration 1 with answer `42`. -/
theorem react_final_first_iteration_witness :
    goTrimSpace "FINAL: 42" = "FINAL:" ++ " 42" ∧
    ∃ out, runReActNode c4Oracle "gpt-3.5-turbo" (7 / 10) none c4Node = .ok out ∧
      out.trace.Iterations = 1 ∧
      out.answer = goTrimSpace " 42" ∧
      out.err = none ∧
      out.trace.ThinkingSteps = [{ Iteration := 1, Thought := "FINAL: 42", Cost := 0 }] :=
  ⟨by decide,
    react_final_first_iteration c4Oracle "gpt-3.5-turbo" (7 / 10) none c4Node
      { Provider := "openai", Model := "m", Temperature := 1 } "FINAL: 42" " 42" 0
      rfl (by decide) rfl (by decide)⟩

/-! ## C5 and C6: what spec validation does and does not enforce -/

/-- Helper: the id accumulator returned by a successful node walk is the
reversed list of node ids prepended to the input accumulator. -/
theorem validateNodesGo_ok_ids (nodes : List Node) :
    ∀ (acc ids : List String), validateNodesGo nodes acc = .ok ids →
      ids = (nodes.map Node.ID).reverse ++ acc := by
  induction nodes with
  | nil =>
    intro acc ids h
    simp only [validateNodesGo] at h
    cases h
    simp
  | cons n rest ih =>
    intro acc ids h
    simp only [validateNodesGo] at h
    split at h
    · cases h
    · split at h
      · cases h
      · split at h
        · cases h
        · split at h
          · cases h
          · have := ih (n.ID :: acc) ids h
            simp [this, List.append_assoc]

/-- Helper: a successful node walk implies pairwise-distinct node ids, all
disjoint from the incoming accumulator. -/
theorem validateNodesGo_ok_nodup (nodes : List Node) :
    ∀ (acc ids : List String), validateNodesGo nodes acc = .ok ids →
      (nodes.map Node.ID).Nodup ∧ ∀ x ∈ acc, x ∉ nodes.map Node.ID := by
  induction nodes with
  | nil =>
    intro acc ids h
    simp
  | cons n rest ih =>
    intro acc ids h
    simp only [validateNodesGo] at h
    split at h
    · cases h
    · split at h
      · cases h
      · split at h
        · cases h
        · split at h
          · cases h
          · rename_i hid hdup hty hllm
            obtain ⟨hnodup, hacc⟩ := ih (n.ID :: acc) ids h
            have hnotin : n.ID ∉ rest.map Node.ID :=
              hacc n.ID (by simp)
            constructor
            · simpa [hnotin] using hnodup
            · intro x hx
              simp only [List.map_cons, List.mem_cons]
              rintro (hxe | hxm)
              · exact hdup (by simpa [hxe] using List.elem_iff.mpr hx)
              · exact hacc x (by simp [hx]) hxm

/-- Helper: a successful node walk implies every node has a nonempty id and a
nonempty type tag, and every `llm` node has a prompt. -/
theorem validateNodesGo_ok_fields (nodes : List Node) :
    ∀ (acc ids : List String), validateNodesGo nodes acc = .ok ids →
      ∀ n ∈ nodes, n.ID ≠ "" ∧ n.NodeType ≠ "" ∧
        (n.NodeType = "llm" → n.Prompt ≠ "") := by
  induction nodes with
  | nil => intro acc ids h n hn; cases hn
  | cons m rest ih =>
    intro acc ids h n hn
    simp only [validateNodesGo] at h
    split at h
    · cases h
    · split at h
      · cases h
      · split at h
        · cases h
        · split at h
          · cases h
          · rename_i hid hdup hty hllm
            rcases List.mem_cons.mp hn with hn | hn
            · subst hn
              exact ⟨hid, hty, fun he => by
                by_contra hp
                exact hllm ⟨he, by simpa using hp⟩⟩
            · exact ih (m.ID :: acc) ids h n hn

/-- Helper: a successful route walk implies every route has nonempty
endpoints referencing known ids or the sentinels. -/
theorem validateRoutesGo_ok (ids : List String) (routes : List Route) :
    validateRoutesGo ids routes = .ok () →
      ∀ r ∈ routes, r.From ≠ "" ∧ r.To ≠ "" ∧
        (r.From = "start" ∨ r.From ∈ ids) ∧ (r.To = "end" ∨ r.To ∈ ids) := by
  induction routes with
  | nil => intro h r hr; cases hr
  | cons q rest ih =>
    intro h r hr
    simp only [validateRoutesGo] at h
    split at h
    · cases h
    · split at h
      · cases h
      · split at h
        · cases h
        · rename_i hne hfrom hto
          rcases List.mem_cons.mp hr with hr | hr
          · subst hr
            push_neg at hne
            refine ⟨hne.1, hne.2, ?_, ?_⟩
            · by_cases hs : r.From = "start"
              · exact Or.inl hs
              · rcases not_and.mp hfrom hs with hc
                exact Or.inr (by simpa using List.elem_iff.mp (by simpa using not_not.mp hc))
            · by_cases hs : r.To = "end"
              · exact Or.inl hs
              · rcases not_and.mp hto hs with hc
                exact Or.inr (by simpa using List.elem_iff.mp (by simpa using not_not.mp hc))
          · exact ih h r hr

/-- C5 (amended). A spec accepted by `ValidateSpec` has a nonempty version
and goal, at least one node and one route, pairwise-distinct nonempty node
ids, nonempty type tags, prompts on `llm` nodes, and route endpoints that
reference an existing node id or the sentinels `start`/`end`.
(`ValidateSpec` does not require a route from `start`; see the
counterexample.) -/
theorem validateSpec_enforced_invariants (s : AgentSpec)
    (h : ValidateSpec s = .ok ()) :
    s.Version ≠ "" ∧ s.Goal ≠ "" ∧
    s.Nodes ≠ [] ∧ s.Routes ≠ [] ∧
    (s.Nodes.map Node.ID).Nodup ∧
    (∀ n ∈ s.Nodes, n.ID ≠ "" ∧ n.NodeType ≠ "" ∧
      (n.NodeType = "llm" → n.Prompt ≠ "")) ∧
    (∀ r ∈ s.Routes, (r.From = "start" ∨ r.From ∈ s.Nodes.map Node.ID) ∧
      (r.To = "end" ∨ r.To ∈ s.Nodes.map Node.ID)) := by
  unfold ValidateSpec at h
  split at h
  · cases h
  · split at h
    · cases h
    · split at h
      · cases h
      · split at h
        · cases h
        · rename_i hv hg hnodes hroutes
          split at h
          · cases h
          · rename_i ids hids
            have hid_eq := validateNodesGo_ok_ids s.Nodes [] ids hids
            have hmem : ∀ x, x ∈ ids ↔ x ∈ s.Nodes.map Node.ID := by
              intro x
              simp [hid_eq]
            refine ⟨hv, hg, by simpa using hnodes, by simpa using hroutes,
              (validateNodesGo_ok_nodup s.Nodes [] ids hids).1,
              validateNodesGo_ok_fields s.Nodes [] ids hids, ?_⟩
            intro r hr
            obtain ⟨-, -, hfrom, hto⟩ := validateRoutesGo_ok ids s.Routes h r hr
            exact ⟨by simpa [hmem] using hfrom, by simpa [hmem] using hto⟩

/-- Spec used by the C5 witness: structurally valid, with an entry route. -/
def c5wSpec : AgentSpec :=
  { Version := "1", Goal := "g",
    Nodes := [{ ID := "n1", NodeType := "llm", Prompt := "p" },
              { ID := "n2", NodeType := "react" }],
    Routes := [{ From := "start", To := "n1" }, { From := "n1", To := "n2" },
               { From := "n2", To := "end" }] }

/-- Witness for C5 (amended) on a concrete valid spec. -/
theorem validateSpec_enforced_invariants_witness :
    ValidateSpec c5wSpec = .ok () ∧
    (c5wSpec.Version ≠ "" ∧ c5wSpec.Goal ≠ "" ∧
      c5wSpec.Nodes ≠ [] ∧ c5wSpec.Routes ≠ [] ∧
      (c5wSpec.Nodes.map Node.ID).Nodup ∧
      (∀ n ∈ c5wSpec.Nodes, n.ID ≠ "" ∧ n.NodeType ≠ "" ∧
        (n.NodeType = "llm" → n.Prompt ≠ "")) ∧
      (∀ r ∈ c5wSpec.Routes, (r.From = "start" ∨ r.From ∈ c5wSpec.Nodes.map Node.ID) ∧
        (r.To = "end" ∨ r.To ∈ c5wSpec.Nodes.map Node.ID))) :=
  ⟨by decide, validateSpec_enforced_invariants c5wSpec (by decide)⟩

/-- Spec violating the "at least one route from `start`" invariant of §3. -/
def c5Spec : AgentSpec :=
  { Version := "1", Goal := "g",
    Nodes := [{ ID := "n1", NodeType := "llm", Prompt := "p" }],
    Routes := [{ From := "n1", To := "end" }] }

/-- Counterexample for C5 as stated: a spec with no route leaving `start`
passes both `ValidateSpec` and the manager's validation gate, so this §3
invariant is not enforced by validation. -/
theorem validateSpec_accepts_missing_entry_route :
    ValidateSpec c5Spec = .ok () ∧
    managerValidate c5Spec = .ok () ∧
    c5Spec.Routes.all (fun r => r.From != "start") = true ∧
    findNodesFrom c5Spec.Routes "start" = [] := by
  exact ⟨by decide, by decide, by decide, by decide⟩

/-- C6 (amended). Only the empty type tag is rejected by validation; a node
whose type tag is none of `llm`, `react`, `tool` passes `ValidateSpec` (see
the counterexample) and instead fails at execution time: dispatching it
yields the unsupported-node-type error and records a failed `NodeResult`. -/
theorem unsupported_node_type_fails_at_execution :
    (∀ (env : ExecEnv) (nodeID input : String) (st : ExecState) (node : Node),
       nodeMapGet env.spec.Nodes nodeID = some node →
       node.NodeType ≠ "llm" → node.NodeType ≠ "react" → node.NodeType ≠ "tool" →
       executeNode env nodeID input st =
         (.error ("unsupported node type: " ++ node.NodeType),
          { st with results := assocSet st.results nodeID { NodeID := nodeID, Input := input, Status := "failed", Error := "unsupported node type: " ++ node.NodeType } })) ∧
    (∀ s : AgentSpec, (∃ n, n ∈ s.Nodes ∧ n.NodeType = "") →
       ValidateSpec s ≠ .ok ()) := by
  constructor
  · intro env nodeID input st node hlook h1 h2 h3
    unfold executeNode
    rw [hlook]
    simp [h1, h2, h3]
  · intro s hex hok
    obtain ⟨n, hmem, hty⟩ := hex
    unfold ValidateSpec at hok
    split at hok
    · cases hok
    · split at hok
      · cases hok
      · split at hok
        · cases hok
        · split at hok
          · cases hok
          · split at hok
            · cases hok
            · rename_i ids hids
              obtain ⟨-, hne, -⟩ := validateNodesGo_ok_fields s.Nodes [] ids hids n hmem
              exact hne hty

/-- Spec whose single node carries the unknown type tag `transform`. -/
def c6Spec : AgentSpec :=
  { Version := "1", Goal := "g",
    Nodes := [{ ID := "t1", NodeType := "transform" }],
    Routes := [{ From := "start", To := "t1" }, { From := "t1", To := "end" }] }

/-- Counterexample for C6 as stated: the spec with a `transform`-typed node
is accepted by `ValidateSpec` (and by the manager's gate); unknown type tags
do not fail validation. -/
theorem validateSpec_accepts_unknown_type :
    ValidateSpec c6Spec = .ok () ∧
    managerValidate c6Spec = .ok () ∧
    c6Spec.Nodes.map Node.NodeType = ["transform"] ∧
    ("transform" ≠ "llm" ∧ "transform" ≠ "react" ∧ "transform" ≠ "tool") :=
  ⟨by decide, by decide, by decide, by decide, by decide, by decide⟩

/-- Environment running `c6Spec`, for the C6 witness. -/
def c6Env : ExecEnv :=
  { spec := c6Spec, llm := fun _ _ _ _ => .ok ("x", 0),
    providerFor := fun _ => .error "no tools" }

/-- Spec with an empty node type tag, for the C6 witness. -/
def c6EmptySpec : AgentSpec :=
  { Version := "1", Goal := "g",
    Nodes := [{ ID := "e1", NodeType := "" }],
    Routes := [{ From := "start", To := "e1" }] }

/-- Witness for C6 (amended): the `transform` node fails at execution with
the unsupported-node-type error, and an empty type tag fails validation. -/
theorem unsupported_node_type_witness :
    executeNode c6Env "t1" "" {} =
      (.error "unsupported node type: transform",
       { results := [("t1",
           { NodeID := "t1", Input := "", Status := "failed",
             Error := "unsupported node type: transform" })], calls := 0 }) ∧
    ValidateSpec c6EmptySpec ≠ .ok () :=
  ⟨unsupported_node_type_fails_at_execution.1 c6Env "t1" "" {}
      { ID := "t1", NodeType := "transform" } rfl (by decide) (by decide) (by decide),
    unsupported_node_type_fails_at_execution.2 c6EmptySpec
      ⟨{ ID := "e1", NodeType := "" }, by decide, rfl⟩⟩

/-! ## C7: what Save/Load round-trips -/

/-- C7 (amended). Saving and loading an execution round-trips its id, status,
creation/start/end timestamps, and — when a result is present — the total
cost, duration and error text; the result's output text is not stored in
`trace.json` and comes back empty. -/
theorem save_load_roundtrip_fields (e : Execution) :
    (loadOfSave e).ID = e.ID ∧
    (loadOfSave e).Status = e.Status ∧
    (loadOfSave e).CreatedAt = e.CreatedAt ∧
    (loadOfSave e).StartedAt = e.StartedAt ∧
    (loadOfSave e).EndedAt = e.EndedAt ∧
    (loadOfSave e).Result.map ExecResult.TotalCost = e.Result.map ExecResult.TotalCost ∧
    (loadOfSave e).Result.map ExecResult.DurationMs = e.Result.map ExecResult.DurationMs ∧
    (loadOfSave e).Result.map ExecResult.Error = e.Result.map ExecResult.Error ∧
    (loadOfSave e).Result.isSome = e.Result.isSome ∧
    (loadOfSave e).Result.map ExecResult.Output = e.Result.map (fun _ => "") := by
  cases e with
  | mk id sp status result created started ended =>
    cases result with
    | none => simp [loadOfSave, buildTraceData, parseTraceData]
    | some r =>
      by_cases herr : r.Error = "" <;>
        simp [loadOfSave, buildTraceData, parseTraceData, herr]

/-- Execution whose result carries a nonempty output, for the C7
counterexample. -/
def c7Exec : Execution :=
  { ID := "exec-1", Status := "completed", CreatedAt := ⟨5⟩,
    StartedAt := some ⟨6⟩, EndedAt := some ⟨9⟩,
    Result := some { Output := "hello", DurationMs := 7, TotalCost := 3 / 100 } }

/-- Counterexample for C7 as stated: the output text does not round-trip
byte-for-byte — `Load` returns an empty output for an execution saved with
output `hello`. -/
theorem save_load_loses_output :
    c7Exec.Result.map ExecResult.Output = some "hello" ∧
    (loadOfSave c7Exec).Result.map ExecResult.Output = some "" ∧
    (loadOfSave c7Exec).Result.map ExecResult.Output ≠ c7Exec.Result.map ExecResult.Output := by
  exact ⟨by decide, by decide, by decide⟩

/-! ## C8: which writes use the temp-file+rename pattern -/

/-- Helper: appending `.tmp` changes a path. -/
theorem ne_append_tmp (s : String) : s ≠ s ++ ".tmp" := by
  intro h
  have hd : s.data = s.data ++ ".tmp".data := by
    conv_lhs => rw [h]
    exact String.data_append s ".tmp"
  have := congrArg List.length hd
  simp at this

/-- C8 (amended). The `trace.json` state record written by `Save` follows the
temp-file+rename pattern, but `SaveOutput` writes `output.txt` directly in
place, with no temporary file and no rename. -/
theorem save_atomic_saveOutput_direct :
    (∀ (marshal : TraceData → String) (basePath : String) (exec : Execution),
       tempRenamePattern (saveOps marshal basePath exec)
         (joinPath (executionDir basePath exec.ID) "trace.json")) ∧
    (∀ basePath id output, saveOutputOps basePath id output =
       [FsOp.writeFile (joinPath (executionDir basePath id) "output.txt") output]) := by
  constructor
  · intro marshal basePath exec
    constructor
    · intro d hd
      simp only [saveOps, List.mem_cons, List.not_mem_nil, or_false] at hd
      rcases hd with hd | hd | hd
      · cases hd
      · rw [FsOp.writeFile.injEq] at hd
        exact ne_append_tmp _ hd.1
      · cases hd
    · exact ⟨joinPath (executionDir basePath exec.ID) "trace.json" ++ ".tmp",
        marshal (buildTraceData exec),
        fun h => ne_append_tmp _ h.symm,
        by simp [saveOps],
        by simp [saveOps]⟩
  · intro basePath id output
    rfl

/-- Counterexample for C8 as stated: the `output.txt` write of `SaveOutput`
does not follow the temp-file+rename pattern — the target is written
directly. -/
theorem saveOutput_not_temp_rename :
    ¬ tempRenamePattern (saveOutputOps "/data" "exec-1" "hello")
       (joinPath (executionDir "/data" "exec-1") "output.txt") := by
  rintro ⟨hno, -⟩
  exact hno "hello" (by simp [saveOutputOps])

/-! ## C9: tool failures — folded into ReAct context vs aborting a tool node -/

/-- C9. A failed tool invocation is handled differently by node kind: inside
a tools-enabled ReAct iteration the tool error is appended to the running
conversation context as a visible `TOOL_RESULT ... ERROR` line, recorded in
the step's tool-call trace, and the iteration continues (no abort); in an
explicit `tool`-type node a tool error, or a result with `success=false`,
aborts the node with an error. -/
theorem tool_failure_handling :
    (∀ (oracle : IterOracle) (toolExec : ToolOracle) (cfg : LLMConfig)
       (sys goal : String) (i : Nat) (ctx resp : String) (cost : Cost)
       (name : String) (args : List (String × JsonValue)) (msg : String),
       oracle i cfg sys (toolsIterationPrompt goal ctx i) = .ok (resp, cost) →
       parseToolCall resp = some (name, args) →
       toolExec name args = .error msg →
       goHasPrefix (goTrimSpace resp) "FINAL:" = false →
       reactToolsIterate oracle toolExec cfg sys goal i ctx =
         .cont { Iteration := i, Thought := resp, Cost := cost, ToolCalls := [{ ToolName := name, Arguments := args, Result := none, Error := msg }] }
           cost resp (ctx ++ "\n\nTOOL_RESULT (" ++ name ++ "): ERROR - " ++ msg)) ∧
    (∀ (env : ExecEnv) (node : Node) (input : String) (st : ExecState)
       (mgr : ToolMgrI) (msg : String),
       getToolManagerForNode env node = .ok (some mgr) →
       node.ToolName ≠ "" →
       mgr.executeTool node.ToolName (substInputArgs (node.ToolArguments.getD []) input) =
         .error msg →
       executeToolNode env node input st =
         { out := .error ("tool execution failed: " ++ msg), st := st }) ∧
    (∀ (env : ExecEnv) (node : Node) (input : String) (st : ExecState)
       (mgr : ToolMgrI) (tr : ToolResult),
       getToolManagerForNode env node = .ok (some mgr) →
       node.ToolName ≠ "" →
       mgr.executeTool node.ToolName (substInputArgs (node.ToolArguments.getD []) input) =
         .ok tr →
       tr.Success = false →
       executeToolNode env node input st =
         { out := .error ("tool returned error: " ++ tr.Error), st := st }) := by
  refine ⟨?_, ?_, ?_⟩
  · intro oracle toolExec cfg sys goal i ctx resp cost name args msg hllm hparse htool hnf
    unfold reactToolsIterate
    rw [hllm]
    simp [hparse, htool, hnf]
  · intro env node input st mgr msg hmgr hname htool
    unfold executeToolNode
    rw [hmgr]
    simp [hname, htool]
  · intro env node input st mgr tr hmgr hname htool hfail
    unfold executeToolNode
    rw [hmgr]
    simp [hname, htool, hfail]

/-- Response with a tool call, for the C9 witness. -/
def c9Resp : String := "TOOL_CALL: ws\n\x7b\"q\": \"x\"\x7d"

/-- Backend oracle for the C9 witness: always answers `c9Resp`. -/
def c9LLM : IterOracle := fun _ _ _ _ => .ok (c9Resp, 0)

/-- Failing tool executor for the C9 witness. -/
def c9Tool : ToolOracle := fun _ _ => .error "boom"

/-- Spec enabling the provider `p` at agent level, for the C9 witness. -/
def c9Spec : AgentSpec :=
  { Version := "1", Goal := "g",
    Nodes := [{ ID := "t1", NodeType := "tool", ToolName := "ws" }],
    Routes := [{ From := "start", To := "t1" }, { From := "t1", To := "end" }],
    Config := some { Tools := some { Provider := "p" } } }

/-- Tool manager whose tool execution fails, for the C9 witness. -/
def c9Mgr : ToolMgrI :=
  { hasTools := true, toolContext := "tools", executeTool := fun _ _ => .error "boom" }

/-- Tool manager whose tool reports `success=false`, for the C9 witness. -/
def c9Mgr2 : ToolMgrI :=
  { hasTools := true, toolContext := "tools",
    executeTool := fun _ _ => .ok { Success := false, Error := "denied" } }

/-- Environment resolving provider `p` to the failing manager. -/
def c9Env : ExecEnv :=
  { spec := c9Spec, llm := fun _ _ _ _ => .ok ("x", 0),
    providerFor := fun _ => .ok c9Mgr }

/-- Environment resolving provider `p` to the `success=false` manager. -/
def c9Env2 : ExecEnv :=
  { spec := c9Spec, llm := fun _ _ _ _ => .ok ("x", 0),
    providerFor := fun _ => .ok c9Mgr2 }

/-- Explicit tool node used by the C9 witness. -/
def c9ToolNode : Node := { ID := "t1", NodeType := "tool", ToolName := "ws" }

/-- Witness for C9: a concrete failed tool call inside a ReAct iteration is
folded into the context and the loop continues, while the same failure (and
a `success=false` result) aborts an explicit tool node. -/
theorem tool_failure_handling_witness :
    (parseToolCall c9Resp = some ("ws", [("q", JsonValue.str "x")]) ∧
      reactToolsIterate c9LLM c9Tool {} "s" "g" 1 "" =
        .cont { Iteration := 1, Thought := c9Resp, Cost := 0, ToolCalls := [{ ToolName := "ws", Arguments := [("q", JsonValue.str "x")], Result := none, Error := "boom" }] }
          0 c9Resp "\n\nTOOL_RESULT (ws): ERROR - boom") ∧
    executeToolNode c9Env c9ToolNode "" {} =
      { out := .error "tool execution failed: boom", st := {} } ∧
    executeToolNode c9Env2 c9ToolNode "" {} =
      { out := .error "tool returned error: denied", st := {} } := by
  refine ⟨⟨by decide, ?_⟩, ?_, ?_⟩
  · simpa using tool_failure_handling.1 c9LLM c9Tool {} "s" "g" 1 "" c9Resp 0
      "ws" [("q", JsonValue.str "x")] "boom" rfl (by decide) rfl (by decide)
  · simpa using tool_failure_handling.2.1 c9Env c9ToolNode "" {} c9Mgr "boom"
      rfl (by decide) rfl
  · simpa using tool_failure_handling.2.2 c9Env2 c9ToolNode "" {} c9Mgr2
      { Success := false, Error := "denied" } rfl (by decide) rfl rfl

/-! ## C10: silent replacement of duplicate tool names -/

/-- Helper: looking up the key just set returns the new value. -/
theorem lookupAssoc_assocSet_self {α : Type} (l : List (String × α)) (k : String) (v : α) :
    lookupAssoc (assocSet l k v) k = some v := by
  simp [assocSet, lookupAssoc]

/-- Helper: dropping the entries of key `k` does not change lookups of other
keys. -/
theorem lookupAssoc_filter_ne {α : Type} (l : List (String × α)) (k k' : String)
    (h : k' ≠ k) :
    lookupAssoc (l.filter (fun p => p.1 != k)) k' = lookupAssoc l k' := by
  induction l with
  | nil => rfl
  | cons p rest ih =>
    by_cases hp : p.1 = k
    · have hne : ¬ p.1 = k' := by rw [hp]; exact fun he => h he.symm
      have hkk : ¬ k = k' := fun he => h he.symm
      simp [List.filter_cons, hp, lookupAssoc, hne, ih, hkk]
    · simp only [List.filter_cons]
      simp only [bne_iff_ne, ne_eq, hp, not_false_iff, if_pos]
      cases p with
      | mk a b =>
        by_cases ha : a = k'
        · simp [lookupAssoc, ha]
        · simp [lookupAssoc, ha, ih]

/-- Helper: setting key `k` does not change lookups of other keys. -/
theorem lookupAssoc_assocSet_other {α : Type} (l : List (String × α))
    (k k' : String) (v : α) (h : k' ≠ k) :
    lookupAssoc (assocSet l k v) k' = lookupAssoc l k' := by
  have hk : ¬ k = k' := fun he => h he.symm
  simp only [assocSet, lookupAssoc, hk, if_neg]
  exact lookupAssoc_filter_ne l k k' h

/-- Helper: registering a list of tools with nonempty names always succeeds
and folds `assocSet` over the registry contents. -/
theorem registerAll_ok (pn : String) (ts : List ToolDefinition) :
    ∀ r : Registry, (∀ t ∈ ts, t.Name ≠ "") →
      registerAll pn r ts =
        .ok { tools := ts.foldl (fun acc t => assocSet acc t.Name t) r.tools } := by
  induction ts with
  | nil => intro r h; rfl
  | cons t ts ih =>
    intro r h
    have hn : t.Name ≠ "" := h t (by simp)
    simp only [registerAll, Registry.registerTool, hn, if_neg, List.foldl_cons]
    exact ih { tools := assocSet r.tools t.Name t } (fun t' ht' => h t' (by simp [ht']))

/-- Helper: after folding a tool list into a registry, the unique tool of a
given name in the list (or an initial entry no list element shadows) is what
lookup returns. -/
theorem lookupAssoc_foldl_assocSet (t : ToolDefinition) :
    ∀ ts : List ToolDefinition, (∀ t' ∈ ts, t'.Name = t.Name → t' = t) →
    ∀ l : List (String × ToolDefinition),
      (lookupAssoc l t.Name = some t ∨ t ∈ ts) →
      lookupAssoc (ts.foldl (fun acc td => assocSet acc td.Name td) l) t.Name = some t := by
  intro ts
  induction ts with
  | nil =>
    intro _ l h
    rcases h with h | h
    · exact h
    · cases h
  | cons td ts ih =>
    intro huniq l h
    simp only [List.foldl_cons]
    apply ih (fun t' ht' => huniq t' (by simp [ht']))
    by_cases hname : td.Name = t.Name
    · left
      have heq : td = t := huniq td (by simp) hname
      subst heq
      exact lookupAssoc_assocSet_self _ _ _
    · rcases h with h | h
      · left
        rw [lookupAssoc_assocSet_other _ _ _ _ (fun he => hname he.symm)]
        exact h
      · rcases List.mem_cons.mp h with h | h
        · exact absurd (by rw [h]) hname
        · exact Or.inr h

/-- C10. `Registry.Register` succeeds for any nonempty tool name — also when
a tool of that name is already registered, silently replacing it, so `Get`
returns the newly registered definition; only an empty name is rejected.
Consequently `Manager.RegisterProvider`, which rejects only duplicate
provider names, accepts a provider exposing a tool name already registered
by another provider, rerouting that name to the later provider's
definition. -/
theorem registry_register_overwrites :
    (∀ (r : Registry) (t : ToolDefinition), t.Name ≠ "" →
       ∃ r', r.registerTool t = .ok r' ∧ r'.get t.Name = .ok t) ∧
    (∀ (r : Registry) (t : ToolDefinition), t.Name = "" →
       r.registerTool t = .error "tool name cannot be empty") ∧
    (∀ (m : ManagerModel) (p : ProviderModel) (ts : List ToolDefinition)
       (t : ToolDefinition),
       lookupAssoc m.providers p.name = none →
       p.listToolsResult = .ok ts →
       (∀ t' ∈ ts, t'.Name ≠ "") →
       t ∈ ts →
       (∀ t' ∈ ts, t'.Name = t.Name → t' = t) →
       ∃ m', m.registerProvider p = .ok m' ∧ m'.registry.get t.Name = .ok t) := by
  refine ⟨?_, ?_, ?_⟩
  · intro r t hn
    refine ⟨{ tools := assocSet r.tools t.Name t }, ?_, ?_⟩
    · simp [Registry.registerTool, hn]
    · simp [Registry.get, lookupAssoc_assocSet_self]
  · intro r t hn
    simp [Registry.registerTool, hn]
  · intro m p ts t hprov hlist hnames hmem huniq
    refine ⟨{ providers := assocSet m.providers p.name p, registry := { tools := ts.foldl (fun acc td => assocSet acc td.Name td) m.registry.tools } }, ?_, ?_⟩
    · unfold ManagerModel.registerProvider
      rw [hprov]
      simp only [Option.isSome_none, Bool.false_eq_true, if_neg, if_false]
      rw [hlist]
      simp [registerAll_ok p.name ts m.registry hnames]
    · simp only [Registry.get]
      rw [lookupAssoc_foldl_assocSet t ts huniq m.registry.tools (Or.inr hmem)]

/-- Earlier-registered tool definition (provider `builtin`). -/
def c10Old : ToolDefinition := { Name := "ws", Description := "old", Provider := "builtin" }

/-- Later tool definition of the same name from another provider. -/
def c10New : ToolDefinition := { Name := "ws", Description := "new", Provider := "arcade" }

/-- Registry already holding `ws`, for the C10 witness. -/
def c10Reg : Registry := { tools := [("ws", c10Old)] }

/-- Manager with the `builtin` provider registered, for the C10 witness. -/
def c10M : ManagerModel :=
  { providers := [("builtin", { name := "builtin", listToolsResult := .ok [c10Old] })],
    registry := c10Reg }

/-- Second provider exposing the already-registered tool name `ws`. -/
def c10P : ProviderModel := { name := "arcade", listToolsResult := .ok [c10New] }

/-- Witness for C10: re-registering `ws` succeeds and reroutes lookups to the
new definition, both at the registry and through `RegisterProvider`. -/
theorem registry_register_overwrites_witness :
    (∃ r', c10Reg.registerTool c10New = .ok r' ∧ r'.get "ws" = .ok c10New) ∧
    Registry.registerTool {} { Name := "" } = .error "tool name cannot be empty" ∧
    (∃ m', c10M.registerProvider c10P = .ok m' ∧ m'.registry.get "ws" = .ok c10New) :=
  ⟨registry_register_overwrites.1 c10Reg c10New (by decide),
    registry_register_overwrites.2.1 {} { Name := "" } rfl,
    registry_register_overwrites.2.2 c10M c10P [c10New] c10New rfl rfl
      (by decide) (by decide) (by decide)⟩

end Not7
